import Mathlib

/-!
Verification of the xhttp library (browser variant `xhttp.mjs` and Node
variant, the unnamed ES module with `streamRes`/`timeoutRes` etc.) against
its natural-language specification.

The embedding models:
  * JSON values and the platform `JSON.stringify` / `JSON.parse` pair
    (collaborators of the library; numbers are restricted to integers,
    since exact float semantics are out of scope for every claim),
  * the Node response lifecycle (`streamRes`, `timeoutRes`,
    `clientAbortRes`, `remoteAbortRes`, `wait`),
  * the Node body pipeline (`bufferStream`/`concatChunks`, `resToComplete`,
    `resToString`, `resFromJson`, `resOnlyOk`, `ResErr`),
  * the Node query codec (`searchAppend`, `searchAppendOne`),
  * the browser event-to-response conversion, `wait`, header parsing
    (`headParse`, `headAdd`) and `ResErr`/`preview`.

Stateful JS (promises, event listeners) is embedded by passing the terminal
signal explicitly; fallible JS (throwing, promise rejection) is embedded
with `Except`.
-/

/-! ## JSON model (platform collaborator: `JSON.stringify` / `JSON.parse`) -/

/-- A JSON value. JS numbers are modelled as integers: no claim depends on
fractional numbers, and floats are not exactly statable. -/
inductive Jval where
  | null
  | bool (b : Bool)
  | num (n : Int)
  | str (s : String)
  | arr (elems : List Jval)
  | obj (fields : List (String × Jval))

mutual

/-- Decidable structural equality on JSON values. -/
def Jval.decEq : (a b : Jval) → Decidable (a = b)
  | .null, .null => isTrue rfl
  | .null, .bool _ => isFalse nofun
  | .null, .num _ => isFalse nofun
  | .null, .str _ => isFalse nofun
  | .null, .arr _ => isFalse nofun
  | .null, .obj _ => isFalse nofun
  | .bool _, .null => isFalse nofun
  | .bool x, .bool y =>
    if h : x = y then isTrue (by rw [h]) else isFalse (fun hh => h (by injection hh))
  | .bool _, .num _ => isFalse nofun
  | .bool _, .str _ => isFalse nofun
  | .bool _, .arr _ => isFalse nofun
  | .bool _, .obj _ => isFalse nofun
  | .num _, .null => isFalse nofun
  | .num _, .bool _ => isFalse nofun
  | .num x, .num y =>
    if h : x = y then isTrue (by rw [h]) else isFalse (fun hh => h (by injection hh))
  | .num _, .str _ => isFalse nofun
  | .num _, .arr _ => isFalse nofun
  | .num _, .obj _ => isFalse nofun
  | .str _, .null => isFalse nofun
  | .str _, .bool _ => isFalse nofun
  | .str _, .num _ => isFalse nofun
  | .str x, .str y =>
    if h : x = y then isTrue (by rw [h]) else isFalse (fun hh => h (by injection hh))
  | .str _, .arr _ => isFalse nofun
  | .str _, .obj _ => isFalse nofun
  | .arr _, .null => isFalse nofun
  | .arr _, .bool _ => isFalse nofun
  | .arr _, .num _ => isFalse nofun
  | .arr _, .str _ => isFalse nofun
  | .arr xs, .arr ys =>
    match Jval.decEqL xs ys with
    | isTrue h => isTrue (by rw [h])
    | isFalse h => isFalse (fun hh => h (by injection hh))
  | .arr _, .obj _ => isFalse nofun
  | .obj _, .null => isFalse nofun
  | .obj _, .bool _ => isFalse nofun
  | .obj _, .num _ => isFalse nofun
  | .obj _, .str _ => isFalse nofun
  | .obj _, .arr _ => isFalse nofun
  | .obj xs, .obj ys =>
    match Jval.decEqP xs ys with
    | isTrue h => isTrue (by rw [h])
    | isFalse h => isFalse (fun hh => h (by injection hh))

/-- Decidable equality on lists of JSON values. -/
def Jval.decEqL : (a b : List Jval) → Decidable (a = b)
  | [], [] => isTrue rfl
  | [], _ :: _ => isFalse nofun
  | _ :: _, [] => isFalse nofun
  | x :: xs, y :: ys =>
    match Jval.decEq x y with
    | isFalse h1 => isFalse (fun hh => h1 (by injection hh))
    | isTrue h1 =>
      match Jval.decEqL xs ys with
      | isTrue h2 => isTrue (by rw [h1, h2])
      | isFalse h2 => isFalse (fun hh => h2 (by injection hh))

/-- Decidable equality on lists of JSON object fields. -/
def Jval.decEqP : (a b : List (String × Jval)) → Decidable (a = b)
  | [], [] => isTrue rfl
  | [], _ :: _ => isFalse nofun
  | _ :: _, [] => isFalse nofun
  | (k, v) :: xs, (k', v') :: ys =>
    if hk : k = k' then
      match Jval.decEq v v' with
      | isFalse h1 =>
        isFalse (fun hh => by
          injection hh with hp ht
          exact h1 (congrArg Prod.snd hp))
      | isTrue h1 =>
        match Jval.decEqP xs ys with
        | isTrue h2 => isTrue (by rw [hk, h1, h2])
        | isFalse h2 =>
          isFalse (fun hh => by
            injection hh with hp ht
            exact h2 ht)
    else
      isFalse (fun hh => by
        injection hh with hp ht
        exact hk (congrArg Prod.fst hp))

end

instance : DecidableEq Jval := Jval.decEq

instance {ε α : Type} [DecidableEq ε] [DecidableEq α] : DecidableEq (Except ε α) :=
  fun x y =>
    match x, y with
    | .ok a, .ok b =>
      if h : a = b then isTrue (by rw [h])
      else isFalse (by intro hh; cases hh; exact h rfl)
    | .error a, .error b =>
      if h : a = b then isTrue (by rw [h])
      else isFalse (by intro hh; cases hh; exact h rfl)
    | .ok _, .error _ => isFalse nofun
    | .error _, .ok _ => isFalse nofun

namespace Json

/-- Lower-case hex digit, as used by `JSON.stringify` for control chars. -/
def hexDigit (n : Nat) : Char :=
  if n < 10 then Char.ofNat (48 + n) else Char.ofNat (87 + n)

/-- Escape of one character inside a JSON string literal, following
`JSON.stringify`: quote, backslash, the named control escapes, and
`\u00XX` for the remaining control characters. -/
def escChar (c : Char) : String :=
  if c = '"' then "\\\""
  else if c = '\\' then "\\\\"
  else if c = '\n' then "\\n"
  else if c = '\r' then "\\r"
  else if c = '\t' then "\\t"
  else if c.toNat = 8 then "\\b"
  else if c.toNat = 12 then "\\f"
  else if c.toNat < 32 then
    "\\u00" ++ (hexDigit (c.toNat / 16)).toString ++ (hexDigit (c.toNat % 16)).toString
  else c.toString

/-- JSON string literal for `s`, with `JSON.stringify` escaping. -/
def escStr (s : String) : String :=
  "\"" ++ String.join (s.data.map escChar) ++ "\""

mutual

/-- Model of the platform `JSON.stringify` on JSON values: no whitespace,
object fields in the order given. -/
def stringify : Jval → String
  | .null => "null"
  | .bool true => "true"
  | .bool false => "false"
  | .num n => toString n
  | .str s => escStr s
  | .arr l => "[" ++ stringifyArr l ++ "]"
  | .obj l => "\x7b" ++ stringifyObj l ++ "\x7d"

/-- Comma-joined serialization of array elements. -/
def stringifyArr : List Jval → String
  | [] => ""
  | [v] => stringify v
  | v :: rest => stringify v ++ "," ++ stringifyArr rest

/-- Comma-joined serialization of object fields. -/
def stringifyObj : List (String × Jval) → String
  | [] => ""
  | [(k, v)] => escStr k ++ ":" ++ stringify v
  | (k, v) :: rest => escStr k ++ ":" ++ stringify v ++ "," ++ stringifyObj rest

end

/-- JSON whitespace. -/
def isWsChar (c : Char) : Bool :=
  c = ' ' || c = '\t' || c = '\n' || c = '\r'

/-- ASCII decimal digit. -/
def isDigitChar (c : Char) : Bool :=
  '0' ≤ c && c ≤ '9'

/-- Value of a hex digit, if `c` is one. -/
def hexVal (c : Char) : Option Nat :=
  if '0' ≤ c ∧ c ≤ '9' then some (c.toNat - 48)
  else if 'a' ≤ c ∧ c ≤ 'f' then some (c.toNat - 87)
  else if 'A' ≤ c ∧ c ≤ 'F' then some (c.toNat - 55)
  else none

/-- Parse exactly four hex digits. -/
def parseHex4 : List Char → Except String (Nat × List Char)
  | a :: b :: c :: d :: rest =>
    match hexVal a, hexVal b, hexVal c, hexVal d with
    | some x, some y, some z, some w => .ok (((x * 16 + y) * 16 + z) * 16 + w, rest)
    | _, _, _, _ => .error "bad unicode escape"
  | _ => .error "bad unicode escape"

/-- Parse the remainder of a JSON string literal (the opening quote already
consumed), with escape handling. Raw control characters are rejected, as in
`JSON.parse`. Surrogate `\u` escapes that are not Unicode scalar values are
out of scope and rejected. -/
def parseStrBody : Nat → List Char → List Char → Except String (String × List Char)
  | 0, _, _ => .error "out of fuel"
  | _ + 1, [], _ => .error "unterminated string"
  | fuel + 1, c :: rest, acc =>
    if c = '"' then .ok (acc.reverse.asString, rest)
    else if c = '\\' then
      match rest with
      | [] => .error "unterminated escape"
      | e :: rest2 =>
        if e = '"' then parseStrBody fuel rest2 ('"' :: acc)
        else if e = '\\' then parseStrBody fuel rest2 ('\\' :: acc)
        else if e = '/' then parseStrBody fuel rest2 ('/' :: acc)
        else if e = 'b' then parseStrBody fuel rest2 (Char.ofNat 8 :: acc)
        else if e = 'f' then parseStrBody fuel rest2 (Char.ofNat 12 :: acc)
        else if e = 'n' then parseStrBody fuel rest2 ('\n' :: acc)
        else if e = 'r' then parseStrBody fuel rest2 ('\r' :: acc)
        else if e = 't' then parseStrBody fuel rest2 ('\t' :: acc)
        else if e = 'u' then
          match parseHex4 rest2 with
          | .ok (n, rest3) =>
            if n.isValidChar then parseStrBody fuel rest3 (Char.ofNat n :: acc)
            else .error "surrogate escape out of scope"
          | .error e => .error e
        else .error "bad escape"
    else if c.toNat < 32 then .error "raw control character"
    else parseStrBody fuel rest (c :: acc)

/-- Digits of a nonnegative number read left to right. -/
def digitsToNat (acc : Nat) : List Char → Nat
  | [] => acc
  | c :: rest => digitsToNat (acc * 10 + (c.toNat - 48)) rest

/-- Parse a JSON integer number (optional minus, digits, no leading zero).
Fractional and exponent forms are out of the model's scope and rejected. -/
def parseNum (cs : List Char) : Except String (Jval × List Char) :=
  let (neg, cs1) : Bool × List Char :=
    match cs with
    | '-' :: rest => (true, rest)
    | _ => (false, cs)
  let digits := cs1.takeWhile isDigitChar
  let rest := cs1.dropWhile isDigitChar
  if digits.isEmpty then .error "expected digits"
  else if digits.length > 1 ∧ digits.headD '0' = '0' then .error "leading zero"
  else
    match rest with
    | '.' :: _ => .error "fractional numbers out of scope"
    | 'e' :: _ => .error "exponent out of scope"
    | 'E' :: _ => .error "exponent out of scope"
    | _ =>
      let n : Int := Int.ofNat (digitsToNat 0 digits)
      .ok (.num (if neg then -n else n), rest)

mutual

/-- Model of the platform `JSON.parse` on one value: skip whitespace, then
dispatch on the first character; returns the value and the unconsumed rest. -/
def parseVal : Nat → List Char → Except String (Jval × List Char)
  | 0, _ => .error "out of fuel"
  | fuel + 1, cs =>
    match cs.dropWhile isWsChar with
    | [] => .error "unexpected end of input"
    | 'n' :: 'u' :: 'l' :: 'l' :: rest => .ok (.null, rest)
    | 't' :: 'r' :: 'u' :: 'e' :: rest => .ok (.bool true, rest)
    | 'f' :: 'a' :: 'l' :: 's' :: 'e' :: rest => .ok (.bool false, rest)
    | '"' :: rest =>
      match parseStrBody (fuel + 1) rest [] with
      | .ok (s, rest2) => .ok (.str s, rest2)
      | .error e => .error e
    | '[' :: rest =>
      (match rest.dropWhile isWsChar with
       | ']' :: rest2 => .ok (.arr [], rest2)
       | _ =>
         match parseArrItems fuel rest with
         | .ok (l, rest2) => .ok (.arr l, rest2)
         | .error e => .error e)
    | '\x7b' :: rest =>
      (match rest.dropWhile isWsChar with
       | '\x7d' :: rest2 => .ok (.obj [], rest2)
       | _ =>
         match parseObjItems fuel rest with
         | .ok (l, rest2) => .ok (.obj l, rest2)
         | .error e => .error e)
    | other => parseNum other

/-- Parse one or more comma-separated array elements up to `]`. -/
def parseArrItems : Nat → List Char → Except String (List Jval × List Char)
  | 0, _ => .error "out of fuel"
  | fuel + 1, cs =>
    match parseVal fuel cs with
    | .error e => .error e
    | .ok (v, rest) =>
      match rest.dropWhile isWsChar with
      | ',' :: rest2 =>
        (match parseArrItems fuel rest2 with
         | .ok (l, rest3) => .ok (v :: l, rest3)
         | .error e => .error e)
      | ']' :: rest2 => .ok ([v], rest2)
      | _ => .error "expected comma or close bracket"

/-- Parse one or more comma-separated object fields up to the closing brace. -/
def parseObjItems : Nat → List Char → Except String (List (String × Jval) × List Char)
  | 0, _ => .error "out of fuel"
  | fuel + 1, cs =>
    match cs.dropWhile isWsChar with
    | '"' :: rest =>
      (match parseStrBody fuel rest [] with
       | .error e => .error e
       | .ok (k, rest2) =>
         match rest2.dropWhile isWsChar with
         | ':' :: rest3 =>
           (match parseVal fuel rest3 with
            | .error e => .error e
            | .ok (v, rest4) =>
              match rest4.dropWhile isWsChar with
              | ',' :: rest5 =>
                (match parseObjItems fuel rest5 with
                 | .ok (l, rest6) => .ok ((k, v) :: l, rest6)
                 | .error e => .error e)
              | '\x7d' :: rest5 => .ok ([(k, v)], rest5)
              | _ => .error "expected comma or close brace")
         | _ => .error "expected colon")
    | _ => .error "expected string key"

end

/-- Model of the platform `JSON.parse` on a whole string: one value, then
only whitespace up to the end. -/
def parse (s : String) : Except String Jval :=
  match parseVal (2 * s.data.length + 8) s.data with
  | .error e => .error e
  | .ok (v, rest) =>
    if (rest.dropWhile isWsChar).isEmpty then .ok v
    else .error "unexpected trailing characters"

end Json

/-! ## Node variant (the ES module with `streamRes`, `timeoutRes`, `wait`,
`resToComplete`, `resToString`, `resFromJson`, `resOnlyOk`, `searchAppend`). -/

namespace XhttpNode

/-- Opaque handle for the native `http.ClientRequest`; the library only
reads `req.params` from it when building responses. -/
structure NReq where
  params : Nat
deriving DecidableEq

/-- One chunk emitted by a readable stream: Node delivers strings or
`Buffer`s (byte arrays). -/
inductive Chunk where
  | str (s : String)
  | buf (bytes : List UInt8)
deriving DecidableEq

/-- The body of a canonical Response across the pipeline stages: a live
stream (with the chunks it will emit and an optional emitted error), a
`Buffer`, a string, or a decoded JSON value. The JS value `null` is the
decoded JSON value `null`. -/
inductive Body where
  | stream (chunks : List Chunk) (streamErr : Option String)
  | buf (bytes : List UInt8)
  | str (s : String)
  | jsonVal (v : Jval)
deriving DecidableEq

/-- Canonical Response record, with the exact fields built by `streamRes`
and friends; `bodyText` is absent (`none`) until `resFromJson` sets it. -/
structure Res where
  req : NReq
  type : String
  ok : Bool
  complete : Bool
  status : Nat
  statusText : String
  headers : List (String × String)
  body : Body
  params : Nat
  bodyText : Option Body := none
deriving DecidableEq

/-- Model of `isStatusOk`: the status is a number in [200, 299]. -/
def isStatusOk (status : Nat) : Bool :=
  decide (200 ≤ status ∧ status ≤ 299)

/-- The native response object handed to the `response` listener:
status line, headers, and the byte-stream it will deliver. -/
structure IncomingMsg where
  statusCode : Nat
  statusMessage : String
  headers : List (String × String)
  chunks : List Chunk
  streamErr : Option String
deriving DecidableEq

/-- Model of `streamRes`: the `load` terminal transition. -/
def streamRes (req : NReq) (nodeRes : IncomingMsg) : Res :=
  { req
    type := "load"
    ok := isStatusOk nodeRes.statusCode
    complete := false
    status := nodeRes.statusCode
    statusText := nodeRes.statusMessage
    headers := nodeRes.headers
    body := .stream nodeRes.chunks nodeRes.streamErr
    params := req.params }

/-- Model of `timeoutRes`: the `timeout` terminal transition. -/
def timeoutRes (req : NReq) : Res :=
  { req
    type := "timeout"
    ok := false
    complete := false
    status := 408
    statusText := "request timeout"
    headers := []
    body := .str "request timeout"
    params := req.params }

/-- Model of `clientAbortRes`: the client-initiated `abort` transition. -/
def clientAbortRes (req : NReq) : Res :=
  { req
    type := "abort"
    ok := false
    complete := false
    status := 0
    statusText := "aborted by client"
    headers := []
    body := .str "request aborted by client"
    params := req.params }

/-- Model of `remoteAbortRes`: spread of `clientAbortRes` with the
`aborted` type and remote wording. -/
def remoteAbortRes (req : NReq) : Res :=
  { clientAbortRes req with
    type := "aborted"
    statusText := "aborted by remote"
    body := .str "request aborted by remote" }

/-- The terminal signal observed by `wait`'s listeners: exactly one of the
`response`, `error`, `timeout`, `abort`, `aborted` events fires. -/
inductive Signal where
  | response (nodeRes : IncomingMsg)
  | error (err : String)
  | timeout
  | abort
  | aborted
deriving DecidableEq

/-- Model of `wait`: the promise settles once, resolving with the
canonical Response of the terminal signal, or rejecting with the error of
the transport-level `error` event. -/
def wait (req : NReq) : Signal → Except String Res
  | .response nodeRes => .ok (streamRes req nodeRes)
  | .error err => .error err
  | .timeout => .ok (timeoutRes req)
  | .abort => .ok (clientAbortRes req)
  | .aborted => .ok (remoteAbortRes req)

/-- Chunk is a string. -/
def chunkIsStr : Chunk → Bool
  | .str _ => true
  | .buf _ => false

/-- Chunk is a `Buffer`. -/
def chunkIsBuf : Chunk → Bool
  | .str _ => false
  | .buf _ => true

/-- String content of a chunk (used under the all-strings guard). -/
def chunkStr : Chunk → String
  | .str s => s
  | .buf _ => ""

/-- Model of `toBuffer`: a `Buffer` chunk unchanged, a string chunk
UTF-8-encoded via `Buffer.from`. -/
def toBuffer : Chunk → List UInt8
  | .buf b => b
  | .str s => s.toUTF8.toList

/-- Model of `concatChunks`: join if every chunk is a string, concatenate
if every chunk is a `Buffer`, else coerce each chunk to bytes and
concatenate. -/
def concatChunks (chunks : List Chunk) : Body :=
  if chunks.all chunkIsStr then .str (String.join (chunks.map chunkStr))
  else if chunks.all chunkIsBuf then .buf (List.flatten (chunks.map toBuffer))
  else .buf (List.flatten (chunks.map toBuffer))

/-- Model of `bufferStream`: the accumulated bulk of the stream, or a
rejection carrying the stream's `error` event. -/
def bufferStream (chunks : List Chunk) (streamErr : Option String) : Except String Body :=
  match streamErr with
  | some e => .error e
  | none => .ok (concatChunks chunks)

/-- Model of `resToComplete`: a Response with a `null`/string/`Buffer`
body is returned as is; a stream body is drained, setting `complete`;
anything else fails the `isReadableStream` validation. -/
def resToComplete (res : Res) : Except String Res :=
  match res.body with
  | .jsonVal .null => .ok res
  | .str _ => .ok res
  | .buf _ => .ok res
  | .stream chunks streamErr =>
    (match bufferStream chunks streamErr with
     | .ok body => .ok { res with complete := true, body }
     | .error e => .error e)
  | .jsonVal _ => .error "expected body to satisfy test isReadableStream"

/-- Model of Node `Buffer#toString` (UTF-8 decode). Invalid UTF-8, which
Node maps to replacement characters, is out of the claims' scope and is
mapped to the single replacement character. -/
def bufToString (b : List UInt8) : String :=
  (String.fromUTF8? (ByteArray.mk (Array.mk b))).getD "�"

mutual

/-- Model of the JS `String()` coercion on a decoded JSON value. -/
def jsValToString : Jval → String
  | .null => "null"
  | .bool true => "true"
  | .bool false => "false"
  | .num n => toString n
  | .str s => s
  | .arr l => jsArrItems l
  | .obj _ => "[object Object]"

/-- Elements of a JS array joined with commas by `Array#toString`. -/
def jsArrItems : List Jval → String
  | [] => ""
  | [v] => jsArrItem v
  | v :: rest => jsArrItem v ++ "," ++ jsArrItems rest

/-- One element under `Array#toString`: `null` joins as the empty
string, everything else via `String()`. -/
def jsArrItem : Jval → String
  | .null => ""
  | .bool true => "true"
  | .bool false => "false"
  | .num n => toString n
  | .str s => s
  | .arr l => jsArrItems l
  | .obj _ => "[object Object]"

end

/-- Model of the expression `(body && String(body)) || ''` applied to a
completed body: falsy bodies (the JS values `null`, `false`, `0`, `''`)
give the empty string, everything else its `String()` coercion. -/
def jsBodyToStr : Body → String
  | .str s => s
  | .buf b => bufToString b
  | .stream _ _ => "[object Object]"
  | .jsonVal .null => ""
  | .jsonVal (.bool false) => ""
  | .jsonVal (.num 0) => ""
  | .jsonVal v => jsValToString v

/-- Model of `resToString`: complete the body, then coerce it to a
string. -/
def resToString (res : Res) : Except String Res :=
  match resToComplete res with
  | .error e => .error e
  | .ok r => .ok { r with body := .str (jsBodyToStr r.body) }

/-- Model of `maybeJsonParse`: a non-empty string is `JSON.parse`d (which
may throw), the empty string decodes to `null`, and a non-string value
passes through unchanged. -/
def maybeJsonParse (val : Body) : Except String Body :=
  match val with
  | .str s =>
    if s = "" then .ok (.jsonVal .null)
    else
      (match Json.parse s with
       | .ok v => .ok (.jsonVal v)
       | .error e => .error e)
  | v => .ok v

/-- Model of `resFromJson`: keep the raw body under `bodyText`, replace
`body` with its JSON-decoded value. -/
def resFromJson (res : Res) : Except String Res :=
  match maybeJsonParse res.body with
  | .ok body => .ok { res with bodyText := some res.body, body }
  | .error e => .error e

/-- Model of `preview`: the body itself when at most 128 characters,
else its first 128 characters followed by the marker " ...". -/
def preview (str : String) : String :=
  if 128 < str.length then String.mk (str.data.take 128) ++ " ..." else str

/-- The `ResErr` error value: the message plus the `status`, `statusText`
and `res` fields the constructor copies out of the Response. -/
structure ResErr where
  message : String
  status : Nat
  statusText : String
  res : Res
deriving DecidableEq

/-- Model of the `ResErr` constructor: `stat` is the status when nonzero,
else the status text; the message part is the preview of a string body
when non-empty, else the terminal type, else "unknown". -/
def mkResErr (res : Res) : ResErr :=
  let stat := if res.status ≠ 0 then toString res.status else res.statusText
  let bodyPart :=
    match res.body with
    | .str b => preview b
    | _ => ""
  let msg := if bodyPart ≠ "" then bodyPart
             else if res.type ≠ "" then res.type else "unknown"
  { message := "HTTP error" ++ (if stat ≠ "" then " " ++ stat else "") ++ ": " ++ msg
    status := res.status
    statusText := res.statusText
    res := res }

/-- Model of `resOnlyOk`: the Response unchanged when `ok`, else a thrown
`ResErr` built from it. -/
def resOnlyOk (res : Res) : Except ResErr Res :=
  if res.ok then .ok res else .error (mkResErr res)

/-- Model of `resOnlyComplete`: the Response unchanged when `complete`,
else a thrown `ResErr` built from it. -/
def resOnlyComplete (res : Res) : Except ResErr Res :=
  if res.complete then .ok res else .error (mkResErr res)

/-- One query value element: `null`/`undefined`, a primitive, a `Date`
(carrying its ISO-8601 rendering), or a non-date composite (object or
function), which fails the `isPrim` validation. -/
inductive QElem where
  | nil
  | str (s : String)
  | num (n : Int)
  | bool (b : Bool)
  | date (iso : String)
  | comp
deriving DecidableEq

/-- A query entry value: a single element or a list of elements. -/
inductive QVal where
  | one (e : QElem)
  | list (l : List QElem)
deriving DecidableEq

/-- Model of `searchAppendOne` acting on `URLSearchParams` (modelled as
the ordered list of key/value pairs): `null`/`undefined` is skipped,
a `Date` appends its `toISOString()`, a primitive appends its string
coercion, and anything else fails the `isPrim` validation. -/
def searchAppendOne (search : List (String × String)) (key : String) :
    QElem → Except String (List (String × String))
  | .nil => .ok search
  | .date iso => .ok (search ++ [(key, iso)])
  | .str s => .ok (search ++ [(key, s)])
  | .num n => .ok (search ++ [(key, toString n)])
  | .bool b => .ok (search ++ [(key, if b then "true" else "false")])
  | .comp => .error "expected value to satisfy test isPrim"

/-- The element loop of `searchAppend` over a list value; a thrown
validation error aborts the loop. -/
def searchAppendList (search : List (String × String)) (key : String) :
    List QElem → Except String (List (String × String))
  | [] => .ok search
  | e :: rest =>
    match searchAppendOne search key e with
    | .ok s2 => searchAppendList s2 key rest
    | .error err => .error err

/-- Model of `searchAppend`: a list value appends one element at a time,
a non-list value appends once. -/
def searchAppend (search : List (String × String)) (key : String) :
    QVal → Except String (List (String × String))
  | .list l => searchAppendList search key l
  | .one e => searchAppendOne search key e

/-- Model of `searchAssign`: every query entry appended in order. -/
def searchAssign (search : List (String × String)) :
    List (String × QVal) → Except String (List (String × String))
  | [] => .ok search
  | (key, v) :: rest =>
    match searchAppend search key v with
    | .ok s2 => searchAssign s2 rest
    | .error err => .error err

end XhttpNode

/-! ## Browser variant (`xhttp.mjs`): header parsing, event-to-response
conversion, `wait`, `ResErr`/`preview`. -/

namespace XhttpBrowser

/-- Model of the ASCII lowercasing a JS `toLowerCase()` performs on
header names (header names are ASCII; exotic Unicode case mapping is out
of scope): code points 65..90 (`A`..`Z`) shift by 32. -/
def lowerChar (c : Char) : Char :=
  if h : 65 ≤ c.toNat ∧ c.toNat ≤ 90 then
    ⟨c.val + 32, by
      have h' : 65 ≤ c.val.toNat ∧ c.val.toNat ≤ 90 := h
      have ht : (c.val + 32).toNat = (c.val.toNat + 32) % 2 ^ 32 := rfl
      have ht2 : (c.val + 32).toNat = c.val.toNat + 32 := by
        rw [ht]; omega
      rw [UInt32.isValidChar, Nat.isValidChar, ht2]
      left
      omega⟩
  else c

/-- String lowercasing, character by character. -/
def jsToLower (s : String) : String :=
  String.mk (s.data.map lowerChar)

/-- A header dictionary value: a single string, or the list a repeated
key accumulates into. -/
inductive HeadVal where
  | str (s : String)
  | list (l : List String)
deriving DecidableEq

/-- Model of `headAdd`: no previous value keeps the string, a previous
string becomes a two-element list, a previous list is pushed onto.
(The `key` argument is unused, as in the source.) -/
def headAdd (prev : Option HeadVal) (_key : String) (val : String) : HeadVal :=
  match prev with
  | none => .str val
  | some (.str s) => .list [s, val]
  | some (.list l) => .list (l ++ [val])

/-- Model of the JS object write `out[key] = headAdd(out[key], key, val)`
on an insertion-ordered dictionary. -/
def headSet : List (String × HeadVal) → String → String → List (String × HeadVal)
  | [], key, val => [(key, headAdd none key val)]
  | (k, v) :: rest, key, val =>
    if k = key then (k, headAdd (some v) key val) :: rest
    else (k, v) :: headSet rest key val

/-- Scanner state for the header regex
`([^\r\n:]+):(?: ([^\r\n]*))?` applied globally: accumulating a key
token, just past the colon (optional space pending), or accumulating a
value. -/
inductive HMode where
  | tok (t : List Char)
  | val0 (k : List Char)
  | val (k : List Char) (acc : List Char)

/-- Carriage return or line feed, the characters excluded from both
regex character classes. -/
def isCrLf (c : Char) : Bool :=
  c = '\r' || c = '\n'

/-- Character-at-a-time model of the global regex match loop of
`headParse`: each successive leftmost match `key: value` (or `key:` with
no value group) is emitted in order. -/
def headScan : List Char → HMode → List (String × String)
  | [], .tok _ => []
  | [], .val0 k => [(k.asString, "")]
  | [], .val k acc => [(k.asString, acc.asString)]
  | c :: rest, .tok t =>
    if isCrLf c then headScan rest (.tok [])
    else if c = ':' then
      (if t.isEmpty then headScan rest (.tok [])
       else headScan rest (.val0 t))
    else headScan rest (.tok (t ++ [c]))
  | c :: rest, .val0 k =>
    if c = ' ' then headScan rest (.val k [])
    else
      (k.asString, "") ::
        (if isCrLf c then headScan rest (.tok [])
         else if c = ':' then headScan rest (.tok [])
         else headScan rest (.tok [c]))
  | c :: rest, .val k acc =>
    if isCrLf c then (k.asString, acc.asString) :: headScan rest (.tok [])
    else headScan rest (.val k (acc ++ [c]))

/-- Model of `headParse`: every match's key is lowercased and written
into the dictionary through `headAdd` (`match[2] || ''` is the empty
string exactly when the value group is absent or empty, which the
scanner already emits as `""`). -/
def headParse (head : String) : List (String × HeadVal) :=
  (headScan head.data (.tok [])).foldl
    (fun out kv => headSet out (jsToLower kv.1) kv.2) []

/-- Model of `isStatusOk` (the browser file's identical copy). -/
def isStatusOk (status : Nat) : Bool :=
  decide (200 ≤ status ∧ status ≤ 299)

/-- The `XMLHttpRequest` state read by `eventToRes`: status line, ready
state, response text, the raw header blob, and the `params` stashed on
the request (opaque handle). -/
structure XReq where
  status : Nat
  statusText : String
  readyState : Nat
  responseText : String
  allResponseHeaders : String
  params : Nat
deriving DecidableEq

/-- The `XMLHttpRequest.DONE` ready-state constant. -/
def DONE : Nat := 4

/-- The browser response body: the response text string, or (after the
browser `resFromJson`) a decoded JSON value. -/
inductive BBody where
  | str (s : String)
  | jsonVal (v : Jval)
deriving DecidableEq

/-- The browser canonical Response, with the exact fields `eventToRes`
builds (`head`, not `headers`, in this variant). -/
structure BRes where
  req : XReq
  type : String
  ok : Bool
  complete : Bool
  status : Nat
  statusText : String
  head : List (String × HeadVal)
  body : BBody
  params : Nat
deriving DecidableEq

/-- A completion event: its `type` (`load`, `abort`, `error` or
`timeout` for the four registered listeners) and its target request. -/
structure BEvent where
  type : String
  target : XReq
deriving DecidableEq

/-- Model of `eventToRes`. -/
def eventToRes (event : BEvent) : BRes :=
  let req := event.target
  { req
    type := event.type
    ok := isStatusOk req.status
    complete := decide (req.readyState = DONE)
    status := req.status
    statusText := req.statusText
    head := headParse req.allResponseHeaders
    body := .str req.responseText
    params := req.params }

/-- Model of the browser `wait`: the promise executor only ever captures
the resolve continuation (`onload`, `onabort`, `onerror` and `ontimeout`
all call `done`), so every terminal event resolves to `eventToRes` of the
event and no event rejects. -/
def wait (event : BEvent) : Except String BRes :=
  .ok (eventToRes event)

/-- Model of `preview` (the browser file's identical copy). -/
def preview (str : String) : String :=
  if 128 < str.length then String.mk (str.data.take 128) ++ " ..." else str

/-- The browser `ResErr` error value. -/
structure ResErr where
  message : String
  status : Nat
  statusText : String
  res : BRes
deriving DecidableEq

/-- Model of the browser `ResErr` constructor: `stat` is the status when
nonzero, else the status text; a string body contributes a colon and its
preview, a non-string body contributes nothing. -/
def mkResErr (res : BRes) : ResErr :=
  let stat := if res.status ≠ 0 then toString res.status else res.statusText
  { message :=
      "HTTP error" ++ (if stat ≠ "" then " " ++ stat else "") ++
        (match res.body with
         | .str b => ": " ++ preview b
         | _ => "")
    status := res.status
    statusText := res.statusText
    res := res }

/-- Model of the browser `resOnlyOk`. -/
def resOnlyOk (res : BRes) : Except ResErr BRes :=
  if res.ok then .ok res else .error (mkResErr res)

/-- Model of the browser `searchJoin`: join two query fragments with `&`
when both are non-empty (truthy), else keep whichever is non-empty. -/
def searchJoin (left right : String) : String :=
  if left ≠ "" ∧ right ≠ "" then left ++ "&" ++ right
  else if left ≠ "" then left else right

/-- Model of one recursive call of the browser `queryFormatPair` on a
non-array value (the query elements are shared with the Node model): an
empty key yields the empty string before any validation; otherwise only a
string value passes `validate(val, isString)` — `null`/`undefined`,
dates, numbers, booleans and composites all throw. -/
def queryFormatPairOne (key : String) (e : XhttpNode.QElem) :
    Except String String :=
  if key = "" then .ok ""
  else
    match e with
    | .str s => .ok (key ++ "=" ++ s)
    | _ => .error "expected value to satisfy test isString"

/-- The element loop of the browser `queryFormatPair` over an array
value: `out = searchJoin(out, queryFormatPair(key, elem))`, with a thrown
validation error aborting the loop. (Nested arrays are outside the
claims' scope and not representable in the flat element type.) -/
def queryFormatPairList (key : String) (out : String) :
    List XhttpNode.QElem → Except String String
  | [] => .ok out
  | e :: rest =>
    match queryFormatPairOne key e with
    | .ok s => queryFormatPairList key (searchJoin out s) rest
    | .error err => .error err

/-- Model of the browser `queryFormatPair`: empty keys contribute
nothing, arrays loop over their elements, scalars must be strings. -/
def queryFormatPair (key : String) : XhttpNode.QVal → Except String String
  | .one e => queryFormatPairOne key e
  | .list l => if key = "" then .ok "" else queryFormatPairList key "" l

/-- Whether a query element is a string (the only element kind the
browser codec accepts). -/
def isStrElem : XhttpNode.QElem → Bool
  | .str _ => true
  | _ => false

/-- The string the browser codec produces for the tail of an all-string
list, given the fragment accumulated so far: one `key=value` pair per
element, joined with `&`, in list order. -/
def joinRest (key acc : String) : List String → String
  | [] => acc
  | s :: rest => joinRest key (acc ++ "&" ++ (key ++ "=" ++ s)) rest

/-- The string the browser codec produces for an all-string list: one
`key=value` pair per element, joined with `&`, in list order. -/
def joinPairs (key : String) : List String → String
  | [] => ""
  | s :: rest => joinRest key (key ++ "=" ++ s) rest

end XhttpBrowser

/-! ## Sample values used by witnesses and counterexamples -/

/-- A sample canonical `load` Response with a chosen body, for concrete
instantiations. -/
def sampleRes (b : XhttpNode.Body) : XhttpNode.Res :=
  { req := ⟨0⟩
    type := "load"
    ok := true
    complete := false
    status := 200
    statusText := "OK"
    headers := [("content-type", "application/json")]
    body := b
    params := 0 }

/-- A sample JSON value. -/
def jsonSample : Jval := .obj [("msg", .str "hi")]

/-- A sample non-ok Response (status 404, string body). -/
def sampleBadRes : XhttpNode.Res :=
  { sampleRes (.str "not found") with ok := false, status := 404, statusText := "Not Found" }

/-- A 132-character string whose last four characters are the preview
truncation marker. -/
def cexBody : String := String.mk (List.replicate 128 'a') ++ " ..."

/-- A browser Response around `cexBody` with status 0 and empty status
text. -/
def cexBodyRes : XhttpBrowser.BRes :=
  { req := ⟨0, "", 4, "", "", 0⟩
    type := "load"
    ok := false
    complete := true
    status := 0
    statusText := ""
    head := []
    body := .str cexBody
    params := 0 }

/-- A sample browser Response with status 404 and a short string body. -/
def sampleBRes : XhttpBrowser.BRes :=
  { req := ⟨404, "Not Found", 4, "not found", "", 0⟩
    type := "load"
    ok := false
    complete := true
    status := 404
    statusText := "Not Found"
    head := []
    body := .str "not found"
    params := 0 }

/-- The value a non-composite query element contributes through
`searchAppendOne`: nothing for `null`/`undefined`, the ISO rendering for
a date, the string coercion for the other primitives. -/
def XhttpNode.encodeElem : XhttpNode.QElem → Option String
  | .nil => none
  | .str s => some s
  | .num n => some (toString n)
  | .bool b => some (if b then "true" else "false")
  | .date iso => some iso
  | .comp => none

/-! ## Theorems: claims C1..C10 with their witnesses, counterexamples and
helper lemmas. -/

/-- C1: for every Response produced by the lifecycle state machine (an
`ok` outcome of `wait` at any terminal signal), `ok` is true if and only
if the terminal type is `load` and the status lies in [200, 299]. The
particular statuses 199/300 (false) and 200/299 (true) are instantiated
in the witness. -/
theorem C1_ok_iff_load_and_2xx (req : XhttpNode.NReq) (sig : XhttpNode.Signal)
    (r : XhttpNode.Res) (h : XhttpNode.wait req sig = .ok r) :
    r.ok = true ↔ (r.type = "load" ∧ 200 ≤ r.status ∧ r.status ≤ 299) := by
  cases sig with
  | response nodeRes =>
    have hr : r = XhttpNode.streamRes req nodeRes := by
      simpa [XhttpNode.wait] using h.symm
    subst hr
    simp [XhttpNode.streamRes, XhttpNode.isStatusOk]
  | error err => simp [XhttpNode.wait] at h
  | timeout =>
    have hr : r = XhttpNode.timeoutRes req := by
      simpa [XhttpNode.wait] using h.symm
    subst hr
    simp [XhttpNode.timeoutRes]
  | abort =>
    have hr : r = XhttpNode.clientAbortRes req := by
      simpa [XhttpNode.wait] using h.symm
    subst hr
    simp [XhttpNode.clientAbortRes]
  | aborted =>
    have hr : r = XhttpNode.remoteAbortRes req := by
      simpa [XhttpNode.wait] using h.symm
    subst hr
    simp [XhttpNode.remoteAbortRes, XhttpNode.clientAbortRes]

/-- Witness for C1 at the boundary statuses 199, 200, 299, 300. -/
theorem C1_witness :
    (XhttpNode.streamRes ⟨0⟩ ⟨199, "", [], [], none⟩).ok = false ∧
    (XhttpNode.streamRes ⟨0⟩ ⟨200, "", [], [], none⟩).ok = true ∧
    (XhttpNode.streamRes ⟨0⟩ ⟨299, "", [], [], none⟩).ok = true ∧
    (XhttpNode.streamRes ⟨0⟩ ⟨300, "", [], [], none⟩).ok = false := by
  have h199 := C1_ok_iff_load_and_2xx ⟨0⟩ (.response ⟨199, "", [], [], none⟩) _ rfl
  have h200 := C1_ok_iff_load_and_2xx ⟨0⟩ (.response ⟨200, "", [], [], none⟩) _ rfl
  have h299 := C1_ok_iff_load_and_2xx ⟨0⟩ (.response ⟨299, "", [], [], none⟩) _ rfl
  have h300 := C1_ok_iff_load_and_2xx ⟨0⟩ (.response ⟨300, "", [], [], none⟩) _ rfl
  exact ⟨by revert h199; decide, by revert h200; decide,
         by revert h299; decide, by revert h300; decide⟩

/-- C2 counterexample: the synthesized terminal Responses carry non-empty
descriptive string bodies, not empty bodies. -/
theorem C2_counterexample :
    (XhttpNode.timeoutRes ⟨0⟩).body = .str "request timeout" ∧
    XhttpNode.Body.str "request timeout" ≠ XhttpNode.Body.str "" ∧
    (XhttpNode.clientAbortRes ⟨0⟩).body = .str "request aborted by client" ∧
    (XhttpNode.remoteAbortRes ⟨0⟩).body = .str "request aborted by remote" := by
  exact ⟨rfl, by decide, rfl, rfl⟩

/-- C2 (amended): every non-`load` terminal Response has `ok = false`;
`timeout` gives 408/"request timeout", client abort 0/"aborted by
client", remote abort 0/"aborted by remote"; the bodies are the
descriptive strings "request timeout", "request aborted by client" and
"request aborted by remote" (not empty). -/
theorem C2_terminal_responses (req : XhttpNode.NReq) :
    ((XhttpNode.timeoutRes req).ok = false ∧
     (XhttpNode.timeoutRes req).status = 408 ∧
     (XhttpNode.timeoutRes req).statusText = "request timeout" ∧
     (XhttpNode.timeoutRes req).body = .str "request timeout") ∧
    ((XhttpNode.clientAbortRes req).ok = false ∧
     (XhttpNode.clientAbortRes req).status = 0 ∧
     (XhttpNode.clientAbortRes req).statusText = "aborted by client" ∧
     (XhttpNode.clientAbortRes req).body = .str "request aborted by client") ∧
    ((XhttpNode.remoteAbortRes req).ok = false ∧
     (XhttpNode.remoteAbortRes req).status = 0 ∧
     (XhttpNode.remoteAbortRes req).statusText = "aborted by remote" ∧
     (XhttpNode.remoteAbortRes req).body = .str "request aborted by remote") :=
  ⟨⟨rfl, rfl, rfl, rfl⟩, ⟨rfl, rfl, rfl, rfl⟩, ⟨rfl, rfl, rfl, rfl⟩⟩

/-- C5: the Node `wait` resolves to the canonical Response on the four
non-error terminal signals and rejects exactly on the transport-level
`error` event; the browser `wait` resolves on every event and never
rejects. -/
theorem C5_wait_resolution (req : XhttpNode.NReq) :
    (∀ nodeRes, XhttpNode.wait req (.response nodeRes) =
      .ok (XhttpNode.streamRes req nodeRes)) ∧
    XhttpNode.wait req .timeout = .ok (XhttpNode.timeoutRes req) ∧
    XhttpNode.wait req .abort = .ok (XhttpNode.clientAbortRes req) ∧
    XhttpNode.wait req .aborted = .ok (XhttpNode.remoteAbortRes req) ∧
    (∀ err, XhttpNode.wait req (.error err) = .error err) ∧
    (∀ sig err, XhttpNode.wait req sig = .error err → sig = .error err) ∧
    (∀ event : XhttpBrowser.BEvent,
      XhttpBrowser.wait event = .ok (XhttpBrowser.eventToRes event)) := by
  refine ⟨fun _ => rfl, rfl, rfl, rfl, fun _ => rfl, ?_, fun _ => rfl⟩
  intro sig err h
  cases sig with
  | response n => exact absurd h (by simp [XhttpNode.wait])
  | error e =>
    have he : e = err := by simpa [XhttpNode.wait] using h
    rw [he]
  | timeout => exact absurd h (by simp [XhttpNode.wait])
  | abort => exact absurd h (by simp [XhttpNode.wait])
  | aborted => exact absurd h (by simp [XhttpNode.wait])

/-- Witness for C5: a resolving, a rejecting Node signal, and a browser
`error` event that still resolves. -/
theorem C5_witness :
    XhttpNode.wait ⟨0⟩ .timeout = .ok (XhttpNode.timeoutRes ⟨0⟩) ∧
    XhttpNode.wait ⟨0⟩ (.error "connect ECONNREFUSED") =
      .error "connect ECONNREFUSED" ∧
    XhttpBrowser.wait ⟨"error", ⟨0, "", 4, "", "", 0⟩⟩ =
      .ok (XhttpBrowser.eventToRes ⟨"error", ⟨0, "", 4, "", "", 0⟩⟩) := by
  have h := C5_wait_resolution ⟨0⟩
  exact ⟨h.2.1, h.2.2.2.2.1 "connect ECONNREFUSED", h.2.2.2.2.2.2 _⟩

/-- C8: `resOnlyOk` returns the same Response unchanged when `ok` holds,
and otherwise throws a `ResErr` whose `res` field is that same Response
and whose `status`/`statusText` are copied from it. -/
theorem C8_resOnlyOk (r : XhttpNode.Res) :
    (r.ok = true → XhttpNode.resOnlyOk r = .ok r) ∧
    (r.ok = false →
      XhttpNode.resOnlyOk r = .error (XhttpNode.mkResErr r) ∧
      (XhttpNode.mkResErr r).res = r ∧
      (XhttpNode.mkResErr r).status = r.status ∧
      (XhttpNode.mkResErr r).statusText = r.statusText) := by
  constructor
  · intro h
    simp [XhttpNode.resOnlyOk, h]
  · intro h
    exact ⟨by simp [XhttpNode.resOnlyOk, h], rfl, rfl, rfl⟩

/-- Witness for C8: an ok Response passes through unchanged, a 404
Response produces a `ResErr` carrying it. -/
theorem C8_witness :
    XhttpNode.resOnlyOk (sampleRes (.str "okbody")) = .ok (sampleRes (.str "okbody")) ∧
    XhttpNode.resOnlyOk sampleBadRes = .error (XhttpNode.mkResErr sampleBadRes) ∧
    (XhttpNode.mkResErr sampleBadRes).res = sampleBadRes := by
  have h1 := (C8_resOnlyOk (sampleRes (.str "okbody"))).1 rfl
  have h2 := (C8_resOnlyOk sampleBadRes).2 rfl
  exact ⟨h1, h2.1, h2.2.1⟩

/-- Bind on `Except` reduces on a success. -/
theorem ok_bind {ε α β : Type} (a : α) (f : α → Except ε β) :
    (Except.ok a >>= f) = f a := rfl

/-- Bind on `Except` propagates a failure. -/
theorem error_bind {ε α β : Type} (e : ε) (f : α → Except ε β) :
    ((Except.error e : Except ε α) >>= f) = .error e := rfl

/-- The accumulated bulk of a stream is a string or a `Buffer`, never a
stream again. -/
theorem concatChunks_str_or_buf (cs : List XhttpNode.Chunk) :
    (∃ s, XhttpNode.concatChunks cs = .str s) ∨
    (∃ b, XhttpNode.concatChunks cs = .buf b) := by
  unfold XhttpNode.concatChunks
  split
  · exact Or.inl ⟨_, rfl⟩
  · split
    · exact Or.inr ⟨_, rfl⟩
    · exact Or.inr ⟨_, rfl⟩

/-- `resToComplete` is the identity on Responses whose body is already a
`Buffer` or a string. -/
theorem resToComplete_str_buf (r : XhttpNode.Res)
    (h : (∃ b, r.body = .buf b) ∨ (∃ s, r.body = .str s)) :
    XhttpNode.resToComplete r = .ok r := by
  rcases h with ⟨b, hb⟩ | ⟨s, hs⟩
  · simp [XhttpNode.resToComplete, hb]
  · simp [XhttpNode.resToComplete, hs]

/-- C3 (amended): `resToComplete` is idempotent as a Kleisli map for
every Response whose body is a stream, buffer or string; on a buffer or
string body it returns the Response entirely unchanged — in particular it
does NOT re-establish `complete = true` there (see the counterexample);
`complete = true` is guaranteed (only) after an error-free stream body is
drained. -/
theorem C3_resToComplete_idempotent (r : XhttpNode.Res)
    (h : (∃ cs e, r.body = .stream cs e) ∨ (∃ b, r.body = .buf b) ∨
      (∃ s, r.body = .str s)) :
    (XhttpNode.resToComplete r >>= XhttpNode.resToComplete) =
      XhttpNode.resToComplete r ∧
    ((∃ b, r.body = .buf b) ∨ (∃ s, r.body = .str s) →
      XhttpNode.resToComplete r = .ok r) ∧
    (∀ cs, r.body = .stream cs none →
      ∃ r', XhttpNode.resToComplete r = .ok r' ∧ r'.complete = true) := by
  refine ⟨?_, resToComplete_str_buf r, ?_⟩
  · rcases h with ⟨cs, e, hb⟩ | hrest
    · cases e with
      | none =>
        have h1 : XhttpNode.resToComplete r =
            .ok { r with complete := true, body := XhttpNode.concatChunks cs } := by
          simp [XhttpNode.resToComplete, hb, XhttpNode.bufferStream]
        rw [h1, ok_bind]
        apply resToComplete_str_buf
        rcases concatChunks_str_or_buf cs with ⟨s, hs⟩ | ⟨b, hbb⟩
        · exact Or.inr ⟨s, by simp [hs]⟩
        · exact Or.inl ⟨b, by simp [hbb]⟩
      | some err =>
        have h1 : XhttpNode.resToComplete r = .error err := by
          simp [XhttpNode.resToComplete, hb, XhttpNode.bufferStream]
        rw [h1, error_bind]
    · have h1 := resToComplete_str_buf r hrest
      rw [h1, ok_bind]
      exact h1.symm ▸ h1
  · intro cs hb
    refine ⟨{ r with complete := true, body := XhttpNode.concatChunks cs }, ?_, rfl⟩
    simp [XhttpNode.resToComplete, hb, XhttpNode.bufferStream]

/-- C3 counterexample: on a Response whose body is already a string but
whose `complete` flag is false (such as `timeoutRes`), `resToComplete` is
a strict no-op — the result does NOT have `complete = true`. -/
theorem C3_counterexample :
    XhttpNode.resToComplete (XhttpNode.timeoutRes ⟨0⟩) =
      .ok (XhttpNode.timeoutRes ⟨0⟩) ∧
    (XhttpNode.timeoutRes ⟨0⟩).complete = false := by decide

/-- Witness for C3 at a concrete stream-bodied Response. -/
theorem C3_witness :
    (XhttpNode.resToComplete (sampleRes (.stream [.str "ab", .str "cd"] none)) >>=
      XhttpNode.resToComplete) =
    XhttpNode.resToComplete (sampleRes (.stream [.str "ab", .str "cd"] none)) :=
  (C3_resToComplete_idempotent _ (Or.inl ⟨_, _, rfl⟩)).1

/-- `resToComplete` changes at most `complete` and `body`. -/
theorem resToComplete_frame (r r' : XhttpNode.Res)
    (h : XhttpNode.resToComplete r = .ok r') :
    r'.req = r.req ∧ r'.type = r.type ∧ r'.ok = r.ok ∧ r'.status = r.status ∧
    r'.statusText = r.statusText ∧ r'.headers = r.headers ∧ r'.params = r.params ∧
    r'.bodyText = r.bodyText := by
  unfold XhttpNode.resToComplete at h
  split at h
  · injection h with h; subst h; exact ⟨rfl, rfl, rfl, rfl, rfl, rfl, rfl, rfl⟩
  · injection h with h; subst h; exact ⟨rfl, rfl, rfl, rfl, rfl, rfl, rfl, rfl⟩
  · injection h with h; subst h; exact ⟨rfl, rfl, rfl, rfl, rfl, rfl, rfl, rfl⟩
  · split at h
    · injection h with h; subst h; exact ⟨rfl, rfl, rfl, rfl, rfl, rfl, rfl, rfl⟩
    · exact absurd h (by simp)
  · exact absurd h (by simp)

/-- `resToString` changes at most `complete` and `body`. -/
theorem resToString_frame (r r' : XhttpNode.Res)
    (h : XhttpNode.resToString r = .ok r') :
    r'.req = r.req ∧ r'.type = r.type ∧ r'.ok = r.ok ∧ r'.status = r.status ∧
    r'.statusText = r.statusText ∧ r'.headers = r.headers ∧ r'.params = r.params ∧
    r'.bodyText = r.bodyText := by
  unfold XhttpNode.resToString at h
  split at h
  next heq => exact absurd h (by simp)
  next r1 heq =>
    injection h with h
    subst h
    exact resToComplete_frame r r1 heq

/-- `resFromJson` changes at most `body` and `bodyText`. -/
theorem resFromJson_frame (r r' : XhttpNode.Res)
    (h : XhttpNode.resFromJson r = .ok r') :
    r'.req = r.req ∧ r'.type = r.type ∧ r'.ok = r.ok ∧ r'.status = r.status ∧
    r'.statusText = r.statusText ∧ r'.headers = r.headers ∧ r'.params = r.params ∧
    r'.complete = r.complete := by
  unfold XhttpNode.resFromJson at h
  split at h
  next body heq =>
    injection h with h
    subst h
    exact ⟨rfl, rfl, rfl, rfl, rfl, rfl, rfl, rfl⟩
  next heq => exact absurd h (by simp)

/-- C10 (amended): every pipeline stage preserves `req`, `type`, `ok`,
`status`, `statusText`, `headers` and `params`; `resToComplete` AND
`resToString` change at most `body` and `complete` (see the
counterexample for `resToString` changing `complete`), and `resFromJson`
changes at most `body` and `bodyText`. -/
theorem C10_pipeline_frame :
    (∀ r r' : XhttpNode.Res, XhttpNode.resToComplete r = .ok r' →
      r'.req = r.req ∧ r'.type = r.type ∧ r'.ok = r.ok ∧ r'.status = r.status ∧
      r'.statusText = r.statusText ∧ r'.headers = r.headers ∧ r'.params = r.params ∧
      r'.bodyText = r.bodyText) ∧
    (∀ r r' : XhttpNode.Res, XhttpNode.resToString r = .ok r' →
      r'.req = r.req ∧ r'.type = r.type ∧ r'.ok = r.ok ∧ r'.status = r.status ∧
      r'.statusText = r.statusText ∧ r'.headers = r.headers ∧ r'.params = r.params ∧
      r'.bodyText = r.bodyText) ∧
    (∀ r r' : XhttpNode.Res, XhttpNode.resFromJson r = .ok r' →
      r'.req = r.req ∧ r'.type = r.type ∧ r'.ok = r.ok ∧ r'.status = r.status ∧
      r'.statusText = r.statusText ∧ r'.headers = r.headers ∧ r'.params = r.params ∧
      r'.complete = r.complete) :=
  ⟨resToComplete_frame, resToString_frame, resFromJson_frame⟩

/-- C10 counterexample: `resToString` on a stream-bodied Response flips
`complete` from false to true, so it does not leave every field but
`body` unchanged. -/
theorem C10_counterexample :
    XhttpNode.resToString (sampleRes (.stream [] none)) =
      .ok { sampleRes (.stream [] none) with complete := true, body := .str "" } ∧
    (sampleRes (.stream [] none)).complete = false ∧
    ({ sampleRes (.stream [] none) with
        complete := true, body := XhttpNode.Body.str "" }).complete = true := by
  decide

/-- Witness for C10 at a concrete drained stream Response. -/
theorem C10_witness :
    ({ sampleRes (.stream [.str "hi"] none) with
        complete := true, body := XhttpNode.Body.str "hi" }).status =
      (sampleRes (.stream [.str "hi"] none)).status ∧
    ({ sampleRes (.stream [.str "hi"] none) with
        complete := true, body := XhttpNode.Body.str "hi" }).headers =
      (sampleRes (.stream [.str "hi"] none)).headers := by
  have h := C10_pipeline_frame.1 (sampleRes (.stream [.str "hi"] none))
    { sampleRes (.stream [.str "hi"] none) with
        complete := true, body := XhttpNode.Body.str "hi" } (by decide)
  exact ⟨h.2.2.2.1, h.2.2.2.2.2.1⟩

/-- The element loop of `searchAppend` appends, for each non-composite
element, exactly its encoded pair (none for `null`/`undefined`), in list
order. -/
theorem searchAppendList_eq (key : String) :
    ∀ (l : List XhttpNode.QElem) (search : List (String × String)),
    (∀ e ∈ l, e ≠ XhttpNode.QElem.comp) →
    XhttpNode.searchAppendList search key l =
      .ok (search ++ l.filterMap fun e =>
        (XhttpNode.encodeElem e).map fun s => (key, s)) := by
  intro l
  induction l with
  | nil => intro search _; simp [XhttpNode.searchAppendList]
  | cons e rest ih =>
    intro search h
    have he : e ≠ XhttpNode.QElem.comp := h e (by simp)
    have hrest : ∀ x ∈ rest, x ≠ XhttpNode.QElem.comp :=
      fun x hx => h x (by simp [hx])
    cases e with
    | nil =>
      simp [XhttpNode.searchAppendList, XhttpNode.searchAppendOne,
        XhttpNode.encodeElem, ih search hrest]
    | str s =>
      simp [XhttpNode.searchAppendList, XhttpNode.searchAppendOne,
        XhttpNode.encodeElem, ih _ hrest]
    | num n =>
      simp [XhttpNode.searchAppendList, XhttpNode.searchAppendOne,
        XhttpNode.encodeElem, ih _ hrest]
    | bool b =>
      simp [XhttpNode.searchAppendList, XhttpNode.searchAppendOne,
        XhttpNode.encodeElem, ih _ hrest]
    | date iso =>
      simp [XhttpNode.searchAppendList, XhttpNode.searchAppendOne,
        XhttpNode.encodeElem, ih _ hrest]
    | comp => exact absurd rfl he

/-- Encoding skips nothing when no element is `null`/`undefined` or
composite. -/
theorem filterMap_encode_length (key : String) :
    ∀ l : List XhttpNode.QElem,
    (∀ e ∈ l, e ≠ XhttpNode.QElem.comp) →
    (∀ e ∈ l, e ≠ XhttpNode.QElem.nil) →
    (l.filterMap fun e =>
      (XhttpNode.encodeElem e).map fun s => (key, s)).length = l.length := by
  intro l
  induction l with
  | nil => intro _ _; simp
  | cons e rest ih =>
    intro hc hn
    obtain ⟨s, hs⟩ : ∃ s, XhttpNode.encodeElem e = some s := by
      cases e with
      | nil => exact absurd rfl (hn _ (by simp))
      | comp => exact absurd rfl (hc _ (by simp))
      | str s => exact ⟨s, rfl⟩
      | num n => exact ⟨toString n, rfl⟩
      | bool b => exact ⟨if b then "true" else "false", rfl⟩
      | date iso => exact ⟨iso, rfl⟩
    simp [List.filterMap_cons, hs,
      ih (fun x hx => hc x (by simp [hx])) (fun x hx => hn x (by simp [hx]))]

/-- A string with a non-empty middle segment is non-empty. -/
theorem append_mid_ne_empty (a m b : String) (hm : 0 < m.length) :
    a ++ m ++ b ≠ "" := by
  intro h
  have hl := congrArg String.length h
  rw [String.length_append, String.length_append] at hl
  have h0 : ("" : String).length = 0 := rfl
  rw [h0] at hl
  omega

/-- Joining onto an empty fragment keeps the right side. -/
theorem searchJoin_empty_left (p : String) :
    XhttpBrowser.searchJoin "" p = p := by
  unfold XhttpBrowser.searchJoin
  simp

/-- Joining two non-empty fragments inserts the separator. -/
theorem searchJoin_of_ne (a p : String) (ha : a ≠ "") (hp : p ≠ "") :
    XhttpBrowser.searchJoin a p = a ++ "&" ++ p := by
  unfold XhttpBrowser.searchJoin
  rw [if_pos ⟨ha, hp⟩]

/-- A string element passes the browser codec's validation and yields its
pair. -/
theorem queryFormatPairOne_str (key s : String) (hk : key ≠ "") :
    XhttpBrowser.queryFormatPairOne key (.str s) = .ok (key ++ "=" ++ s) := by
  unfold XhttpBrowser.queryFormatPairOne
  rw [if_neg hk]

/-- Every non-string element fails the browser codec's `isString`
validation (for a non-empty key). -/
theorem queryFormatPairOne_nonstr (key : String) (e : XhttpNode.QElem)
    (hk : key ≠ "") (he : XhttpBrowser.isStrElem e = false) :
    XhttpBrowser.queryFormatPairOne key e =
      .error "expected value to satisfy test isString" := by
  cases e with
  | str s => exact absurd he (by simp [XhttpBrowser.isStrElem])
  | nil => unfold XhttpBrowser.queryFormatPairOne; rw [if_neg hk]
  | num n => unfold XhttpBrowser.queryFormatPairOne; rw [if_neg hk]
  | bool b => unfold XhttpBrowser.queryFormatPairOne; rw [if_neg hk]
  | date iso => unfold XhttpBrowser.queryFormatPairOne; rw [if_neg hk]
  | comp => unfold XhttpBrowser.queryFormatPairOne; rw [if_neg hk]

/-- The browser element loop over an all-string tail joins one pair per
element onto the accumulated fragment. -/
theorem queryFormatPairList_strings (key : String) (hk : key ≠ "") :
    ∀ (ss : List String) (acc : String), acc ≠ "" →
    XhttpBrowser.queryFormatPairList key acc (ss.map XhttpNode.QElem.str) =
      .ok (XhttpBrowser.joinRest key acc ss) := by
  intro ss
  induction ss with
  | nil => intro acc _; rfl
  | cons s rest ih =>
    intro acc ha
    have hp : (key ++ "=" ++ s) ≠ "" := append_mid_ne_empty key "=" s (by decide)
    simp only [List.map_cons, XhttpBrowser.queryFormatPairList,
      queryFormatPairOne_str key s hk]
    rw [searchJoin_of_ne acc _ ha hp]
    show XhttpBrowser.queryFormatPairList key (acc ++ "&" ++ (key ++ "=" ++ s))
        (rest.map XhttpNode.QElem.str) =
      .ok (XhttpBrowser.joinRest key (acc ++ "&" ++ (key ++ "=" ++ s)) rest)
    exact ih _ (append_mid_ne_empty acc "&" _ (by decide))

/-- The browser codec on an all-string list yields exactly one
`key=value` pair per element, `&`-joined, in list order. -/
theorem queryFormatPair_strings (key : String) (hk : key ≠ "")
    (ss : List String) :
    XhttpBrowser.queryFormatPair key (.list (ss.map XhttpNode.QElem.str)) =
      .ok (XhttpBrowser.joinPairs key ss) := by
  cases ss with
  | nil =>
    show (if key = "" then Except.ok ""
      else XhttpBrowser.queryFormatPairList key "" []) = .ok ""
    rw [if_neg hk]
    rfl
  | cons s rest =>
    show (if key = "" then Except.ok ""
      else XhttpBrowser.queryFormatPairList key ""
        ((s :: rest).map XhttpNode.QElem.str)) =
      .ok (XhttpBrowser.joinPairs key (s :: rest))
    rw [if_neg hk]
    have hp : (key ++ "=" ++ s) ≠ "" := append_mid_ne_empty key "=" s (by decide)
    simp only [List.map_cons, XhttpBrowser.queryFormatPairList,
      queryFormatPairOne_str key s hk, searchJoin_empty_left]
    exact queryFormatPairList_strings key hk rest (key ++ "=" ++ s) hp

/-- The browser element loop throws as soon as the list holds any
non-string element. -/
theorem queryFormatPairList_error (key : String) (hk : key ≠ "") :
    ∀ (l : List XhttpNode.QElem) (acc : String),
    (∃ e ∈ l, XhttpBrowser.isStrElem e = false) →
    XhttpBrowser.queryFormatPairList key acc l =
      .error "expected value to satisfy test isString" := by
  intro l
  induction l with
  | nil =>
    intro acc h
    exact absurd h (by simp)
  | cons e rest ih =>
    intro acc h
    cases he : XhttpBrowser.isStrElem e with
    | false =>
      simp only [XhttpBrowser.queryFormatPairList,
        queryFormatPairOne_nonstr key e hk he]
    | true =>
      obtain ⟨s, rfl⟩ : ∃ s, e = XhttpNode.QElem.str s := by
        cases e with
        | str s => exact ⟨s, rfl⟩
        | nil => exact absurd he (by simp [XhttpBrowser.isStrElem])
        | num n => exact absurd he (by simp [XhttpBrowser.isStrElem])
        | bool b => exact absurd he (by simp [XhttpBrowser.isStrElem])
        | date iso => exact absurd he (by simp [XhttpBrowser.isStrElem])
        | comp => exact absurd he (by simp [XhttpBrowser.isStrElem])
      have h2 : ∃ x ∈ rest, XhttpBrowser.isStrElem x = false := by
        rcases h with ⟨x, hx, hfx⟩
        rcases List.mem_cons.mp hx with h1 | hxr
        · subst h1; exact absurd hfx (by simp [XhttpBrowser.isStrElem])
        · exact ⟨x, hxr, hfx⟩
      simp only [XhttpBrowser.queryFormatPairList, queryFormatPairOne_str key s hk]
      exact ih _ h2

/-- The browser codec throws on a list holding any non-string element. -/
theorem queryFormatPair_error (key : String) (hk : key ≠ "")
    (l : List XhttpNode.QElem)
    (h : ∃ e ∈ l, XhttpBrowser.isStrElem e = false) :
    XhttpBrowser.queryFormatPair key (.list l) =
      .error "expected value to satisfy test isString" := by
  show (if key = "" then Except.ok ""
    else XhttpBrowser.queryFormatPairList key "" l) = _
  rw [if_neg hk]
  exact queryFormatPairList_error key hk l "" h

/-- C6 (amended): the two cited query codecs behave differently. Node
`searchAppend`: each non-null list element contributes exactly one `key=`
pair, in original list order (so exactly N pairs when no element is
null/undefined); null/undefined elements are skipped entirely rather than
encoded as empty strings; a date element encodes via its ISO timestamp; a
non-scalar, non-date, non-list element is a validation error. Browser
`queryFormatPair` (for a non-empty key): a list of N string elements
contributes exactly N `key=` pairs joined with `&` in original order, but
a null/undefined, date, or any other non-string list element is a thrown
validation error — neither skipped nor ISO-encoded. -/
theorem C6_query_codecs (search : List (String × String)) (key : String)
    (l : List XhttpNode.QElem) (h : ∀ e ∈ l, e ≠ XhttpNode.QElem.comp) :
    XhttpNode.searchAppend search key (.list l) =
      .ok (search ++ l.filterMap fun e =>
        (XhttpNode.encodeElem e).map fun s => (key, s)) ∧
    ((∀ e ∈ l, e ≠ XhttpNode.QElem.nil) →
      (l.filterMap fun e =>
        (XhttpNode.encodeElem e).map fun s => (key, s)).length = l.length) ∧
    (∀ iso, XhttpNode.encodeElem (.date iso) = some iso) ∧
    XhttpNode.searchAppendOne search key .comp =
      .error "expected value to satisfy test isPrim" ∧
    (∀ ss : List String, key ≠ "" →
      XhttpBrowser.queryFormatPair key (.list (ss.map XhttpNode.QElem.str)) =
        .ok (XhttpBrowser.joinPairs key ss)) ∧
    (key ≠ "" → XhttpBrowser.queryFormatPairOne key .nil =
      .error "expected value to satisfy test isString") ∧
    (∀ iso, key ≠ "" → XhttpBrowser.queryFormatPairOne key (.date iso) =
      .error "expected value to satisfy test isString") ∧
    (∀ l2 : List XhttpNode.QElem, key ≠ "" →
      (∃ e ∈ l2, XhttpBrowser.isStrElem e = false) →
      XhttpBrowser.queryFormatPair key (.list l2) =
        .error "expected value to satisfy test isString") :=
  ⟨searchAppendList_eq key l search h,
   filterMap_encode_length key l h, fun _ => rfl, rfl,
   fun ss hk => queryFormatPair_strings key hk ss,
   fun hk => queryFormatPairOne_nonstr key .nil hk rfl,
   fun iso hk => queryFormatPairOne_nonstr key (.date iso) hk rfl,
   fun l2 hk h2 => queryFormatPair_error key hk l2 h2⟩

/-- C6 counterexample: the two-element list `[null, "a"]` contributes one
pair, not two, and no empty-string pair for the null element. -/
theorem C6_counterexample :
    XhttpNode.searchAppend [] "k" (.list [.nil, .str "a"]) = .ok [("k", "a")] ∧
    ¬ ("k", "") ∈ ([("k", "a")] : List (String × String)) ∧
    ([("k", "a")] : List (String × String)).length ≠ 2 := by decide

/-- Witness for C6: the Node codec on a three-element list with a date,
and the browser codec on an all-string list and on a list with a null
element. -/
theorem C6_witness :
    XhttpNode.searchAppend [("pre", "x")] "k"
      (.list [.str "a", .date "2020-01-02T03:04:05.000Z", .num 3]) =
      .ok [("pre", "x"), ("k", "a"), ("k", "2020-01-02T03:04:05.000Z"), ("k", "3")] ∧
    (([.str "a", .date "2020-01-02T03:04:05.000Z", .num 3] :
        List XhttpNode.QElem).filterMap fun e =>
      (XhttpNode.encodeElem e).map fun s => (("k" : String), s)).length = 3 ∧
    XhttpBrowser.queryFormatPair "k" (.list [.str "a", .str "b"]) = .ok "k=a&k=b" ∧
    XhttpBrowser.queryFormatPair "k" (.list [.nil, .str "a"]) =
      .error "expected value to satisfy test isString" := by
  have h := C6_query_codecs [("pre", "x")] "k"
    [.str "a", .date "2020-01-02T03:04:05.000Z", .num 3] (by decide)
  refine ⟨?_, ?_, ?_, ?_⟩
  · rw [h.1]; decide
  · simpa using h.2.1 (by decide)
  · have hb := h.2.2.2.2.1 ["a", "b"] (by decide)
    have hmap : (["a", "b"].map XhttpNode.QElem.str) =
        [XhttpNode.QElem.str "a", .str "b"] := rfl
    rw [hmap] at hb
    rw [hb]
    decide
  · exact h.2.2.2.2.2.2.2 [.nil, .str "a"] (by decide) (by decide)

/-- Setting the body of a Response to its own body is the identity. -/
theorem body_update_self (r : XhttpNode.Res) (b : XhttpNode.Body)
    (h : r.body = b) : ({ r with body := b } : XhttpNode.Res) = r := by
  cases r
  cases h
  rfl

/-- C4: for a Response whose materialized body is the string
`JSON.stringify x` (with the platform round-trip `parse (stringify x) =
ok x` as hypothesis — the model restricts JSON numbers to integers),
`resFromJson` after `resToString` yields the decoded value `x` as `body`
and the original string as `bodyText`; and on any Response whose body is
the empty string, `resFromJson` decodes the body to `null`. -/
theorem C4_json_roundtrip (x : Jval) (r : XhttpNode.Res)
    (hb : r.body = .str (Json.stringify x))
    (hp : Json.parse (Json.stringify x) = .ok x) :
    (XhttpNode.resToString r >>= XhttpNode.resFromJson) =
      .ok { r with bodyText := some (.str (Json.stringify x)),
                   body := .jsonVal x } ∧
    (∀ r0 : XhttpNode.Res, r0.body = .str "" →
      XhttpNode.resFromJson r0 =
        .ok { r0 with bodyText := some (.str ""), body := .jsonVal .null }) := by
  constructor
  · have h1 : XhttpNode.resToComplete r = .ok r :=
      resToComplete_str_buf r (Or.inr ⟨_, hb⟩)
    have hts : XhttpNode.resToString r = .ok r := by
      unfold XhttpNode.resToString
      rw [h1]
      show Except.ok { r with body := .str (XhttpNode.jsBodyToStr r.body) } = .ok r
      rw [hb]
      exact congrArg Except.ok (body_update_self r (.str (Json.stringify x)) hb)
    rw [hts, ok_bind]
    have hne : Json.stringify x ≠ "" := by
      intro h0
      rw [h0] at hp
      have hpe : Json.parse "" = Except.error "unexpected end of input" := rfl
      rw [hpe] at hp
      exact nomatch hp
    unfold XhttpNode.resFromJson
    rw [hb]
    show (match XhttpNode.maybeJsonParse (.str (Json.stringify x)) with
      | .ok body => Except.ok { r with bodyText := some (XhttpNode.Body.str (Json.stringify x)), body := body }
      | .error e => Except.error e) =
      .ok { r with bodyText := some (.str (Json.stringify x)), body := .jsonVal x }
    have hm : XhttpNode.maybeJsonParse (.str (Json.stringify x)) =
        .ok (.jsonVal x) := by
      show (if Json.stringify x = "" then
          Except.ok (XhttpNode.Body.jsonVal Jval.null)
        else
          match Json.parse (Json.stringify x) with
          | Except.ok v => Except.ok (XhttpNode.Body.jsonVal v)
          | Except.error e => Except.error e) = .ok (.jsonVal x)
      rw [if_neg hne, hp]
    rw [hm]
  · intro r0 h0
    unfold XhttpNode.resFromJson
    rw [h0]
    rfl

set_option maxRecDepth 8000 in
/-- Witness for C4 at a concrete JSON object. -/
theorem C4_witness :
    (XhttpNode.resToString (sampleRes (.str (Json.stringify jsonSample))) >>=
      XhttpNode.resFromJson) =
      .ok { sampleRes (.str (Json.stringify jsonSample)) with
            bodyText := some (.str (Json.stringify jsonSample)),
            body := .jsonVal jsonSample } :=
  (C4_json_roundtrip jsonSample _ rfl (by decide)).1

/-- Lowercasing an upper-case ASCII letter adds 32 to its code point. -/
theorem lowerChar_toNat_of_upper (c : Char) (h : 65 ≤ c.toNat ∧ c.toNat ≤ 90) :
    (XhttpBrowser.lowerChar c).toNat = c.toNat + 32 := by
  unfold XhttpBrowser.lowerChar
  rw [dif_pos h]
  show (c.val + 32).toNat = c.val.toNat + 32
  have h' : 65 ≤ c.val.toNat ∧ c.val.toNat ≤ 90 := h
  have ht : (c.val + 32).toNat = (c.val.toNat + 32) % 2 ^ 32 := rfl
  rw [ht]
  omega

/-- The lowercasing map is idempotent on characters. -/
theorem lowerChar_fix (c : Char) :
    XhttpBrowser.lowerChar (XhttpBrowser.lowerChar c) = XhttpBrowser.lowerChar c := by
  by_cases h : 65 ≤ c.toNat ∧ c.toNat ≤ 90
  · have ht := lowerChar_toNat_of_upper c h
    have hn : ¬(65 ≤ (XhttpBrowser.lowerChar c).toNat ∧
        (XhttpBrowser.lowerChar c).toNat ≤ 90) := by omega
    exact dif_neg hn
  · have hc : XhttpBrowser.lowerChar c = c := dif_neg h
    simp only [hc]

/-- The lowercasing map is idempotent on strings. -/
theorem jsToLower_idem (s : String) :
    XhttpBrowser.jsToLower (XhttpBrowser.jsToLower s) = XhttpBrowser.jsToLower s := by
  unfold XhttpBrowser.jsToLower
  refine congrArg String.mk ?_
  show ((s.data.map XhttpBrowser.lowerChar).map XhttpBrowser.lowerChar) =
    s.data.map XhttpBrowser.lowerChar
  rw [List.map_map]
  exact List.map_congr_left (fun c _ => by simpa using lowerChar_fix c)

/-- A key present after a `headSet` write was either the written key or
already present. -/
theorem mem_headSet {key val : String} {k : String} {v : XhttpBrowser.HeadVal} :
    ∀ acc : List (String × XhttpBrowser.HeadVal),
    (k, v) ∈ XhttpBrowser.headSet acc key val → k = key ∨ ∃ v', (k, v') ∈ acc := by
  intro acc
  induction acc with
  | nil =>
    intro h
    simp only [XhttpBrowser.headSet, List.mem_singleton] at h
    exact Or.inl (congrArg Prod.fst h)
  | cons p rest ih =>
    intro h
    obtain ⟨k', v'⟩ := p
    by_cases hk : k' = key
    · rw [XhttpBrowser.headSet, if_pos hk] at h
      rcases List.mem_cons.mp h with h1 | h2
      · exact Or.inl ((congrArg Prod.fst h1).trans hk)
      · exact Or.inr ⟨v, List.mem_cons_of_mem _ h2⟩
    · rw [XhttpBrowser.headSet, if_neg hk] at h
      rcases List.mem_cons.mp h with h1 | h2
      · exact Or.inr ⟨v, by rw [h1]; exact List.mem_cons_self _ _⟩
      · rcases ih h2 with h3 | ⟨v'', h4⟩
        · exact Or.inl h3
        · exact Or.inr ⟨v'', List.mem_cons_of_mem _ h4⟩

/-- Every key in the header fold is a fixed point of lowercasing,
provided the keys already accumulated are. -/
theorem keys_lower_foldl :
    ∀ (ms : List (String × String)) (acc : List (String × XhttpBrowser.HeadVal)),
    (∀ k v, (k, v) ∈ acc → XhttpBrowser.jsToLower k = k) →
    ∀ k v, (k, v) ∈ ms.foldl
      (fun out kv => XhttpBrowser.headSet out (XhttpBrowser.jsToLower kv.1) kv.2) acc →
    XhttpBrowser.jsToLower k = k := by
  intro ms
  induction ms with
  | nil =>
    intro acc hacc k v hm
    exact hacc k v (by simpa using hm)
  | cons m rest ih =>
    intro acc hacc k v hm
    rw [List.foldl_cons] at hm
    refine ih _ ?_ k v hm
    intro k' v' hk'
    rcases mem_headSet _ hk' with h1 | ⟨v'', h2⟩
    · rw [h1]; exact jsToLower_idem _
    · exact hacc k' v'' h2

/-- C7: header parsing lowercases every key (every parsed key is a fixed
point of lowercasing), folds repeated keys through `headAdd` (no previous
value keeps the string, a first repetition builds a two-element list,
further repetitions push), so parsing "X-Foo: a\nx-foo: b" yields exactly
the single key `x-foo` with value `["a", "b"]`; a missing value after the
colon parses as the empty string. -/
theorem C7_headParse (s : String) :
    XhttpBrowser.headParse "X-Foo: a\nx-foo: b" =
      [("x-foo", .list ["a", "b"])] ∧
    (∀ key val, XhttpBrowser.headAdd none key val = .str val) ∧
    (∀ prev key val,
      XhttpBrowser.headAdd (some (.str prev)) key val = .list [prev, val]) ∧
    (∀ l key val,
      XhttpBrowser.headAdd (some (.list l)) key val = .list (l ++ [val])) ∧
    XhttpBrowser.headParse "X-Foo:" = [("x-foo", .str "")] ∧
    (∀ k v, (k, v) ∈ XhttpBrowser.headParse s → XhttpBrowser.jsToLower k = k) := by
  refine ⟨by decide, fun _ _ => rfl, fun _ _ _ => rfl, fun _ _ _ => rfl, by decide, ?_⟩
  intro k v h
  exact keys_lower_foldl (XhttpBrowser.headScan s.data (.tok [])) [] (by simp) k v h

/-- Witness for C7: the folded key of the repeated header is a lowercase
fixed point. -/
theorem C7_witness : XhttpBrowser.jsToLower "x-foo" = "x-foo" :=
  (C7_headParse "X-Foo: a\nx-foo: b").2.2.2.2.2 "x-foo" (.list ["a", "b"]) (by decide)

/-- The digit accumulator of `Nat.repr` never empties a non-empty
accumulator. -/
theorem toDigitsCore_ne_nil_of_ne_nil (b f n : Nat) (ds : List Char)
    (h : ds ≠ []) : Nat.toDigitsCore b f n ds ≠ [] := by
  induction f generalizing n ds with
  | zero => simpa [Nat.toDigitsCore] using h
  | succ f ih =>
    simp only [Nat.toDigitsCore]
    by_cases h2 : n / b = 0
    · simp [h2]
    · simp only [h2, if_false, ite_false]
      exact ih _ _ (by simp)

/-- The decimal digits of a natural number are never the empty list. -/
theorem toDigits_ne_nil (b n : Nat) : Nat.toDigits b n ≠ [] := by
  unfold Nat.toDigits
  simp only [Nat.toDigitsCore]
  by_cases h2 : n / b = 0
  · simp [h2]
  · simp only [h2, if_false, ite_false]
    exact toDigitsCore_ne_nil_of_ne_nil _ _ _ _ (by simp)

/-- The decimal rendering of a natural number is never empty (so a
nonzero status always contributes to the error message). -/
theorem nat_toString_ne_empty (n : Nat) : toString n ≠ "" := by
  show Nat.repr n ≠ ""
  unfold Nat.repr
  intro h
  apply toDigits_ne_nil 10 n
  have h2 := congrArg String.data h
  simpa [List.asString] using h2

/-- A body of at most 128 characters previews as itself. -/
theorem preview_short (b : String) (h : b.length ≤ 128) :
    XhttpBrowser.preview b = b := by
  unfold XhttpBrowser.preview
  rw [if_neg]
  omega

/-- A longer body previews as its first 128 characters plus the marker. -/
theorem preview_long (b : String) (h : 128 < b.length) :
    XhttpBrowser.preview b = String.mk (b.data.take 128) ++ " ..." := by
  unfold XhttpBrowser.preview
  rw [if_pos h]

/-- The preview never exceeds 132 characters. -/
theorem preview_length_le (b : String) :
    (XhttpBrowser.preview b).length ≤ max b.length 132 ∧
    (128 < b.length → (XhttpBrowser.preview b).length = 132) := by
  constructor
  · unfold XhttpBrowser.preview
    split
    next h =>
      rw [String.length_append]
      have h1 : (String.mk (b.data.take 128)).length = (b.data.take 128).length := rfl
      rw [h1, List.length_take]
      have h2 : (" ..." : String).length = 4 := rfl
      rw [h2]
      omega
    next h => omega
  · intro h
    rw [preview_long b h, String.length_append]
    have h1 : (String.mk (b.data.take 128)).length = (b.data.take 128).length := rfl
    rw [h1, List.length_take]
    have h2 : (" ..." : String).length = 4 := rfl
    rw [h2]
    have h3 : b.data.length = b.length := rfl
    omega

/-- The browser `ResErr` message decomposes into the fixed prefix, the
`stat` segment, and the preview of a string body. -/
theorem mkResErr_message (r : XhttpBrowser.BRes) (b : String)
    (hb : r.body = .str b) :
    (XhttpBrowser.mkResErr r).message =
      "HTTP error" ++
        (if (if r.status ≠ 0 then toString r.status else r.statusText) ≠ "" then
          " " ++ (if r.status ≠ 0 then toString r.status else r.statusText)
         else "") ++
        (": " ++ XhttpBrowser.preview b) := by
  unfold XhttpBrowser.mkResErr
  rw [hb]

/-- C9 (amended): the `ResErr` message includes the numeric status when
it is nonzero, and a preview of a string body: the body itself when at
most 128 characters, else exactly the first 128 characters of the body
followed by the marker " ..." — a 132-character preview, so at most the
first 128 characters of the body ever appear (for bodies of length
129..132 ending in the marker, the preview may coincide with the whole
body — see the counterexample to the claim's "never the full body"). -/
theorem C9_resErr_preview (r : XhttpBrowser.BRes) (b : String)
    (hb : r.body = .str b) :
    (r.status ≠ 0 → ∃ pre post,
      (XhttpBrowser.mkResErr r).message = pre ++ (toString r.status ++ post)) ∧
    (∃ pre, (XhttpBrowser.mkResErr r).message = pre ++ XhttpBrowser.preview b) ∧
    (XhttpBrowser.preview b).length ≤ max b.length 132 ∧
    (b.length ≤ 128 → XhttpBrowser.preview b = b) ∧
    (128 < b.length →
      XhttpBrowser.preview b = String.mk (b.data.take 128) ++ " ..." ∧
      (XhttpBrowser.preview b).length = 132) := by
  refine ⟨?_, ?_, (preview_length_le b).1, preview_short b, ?_⟩
  · intro h0
    refine ⟨"HTTP error" ++ " ", ": " ++ XhttpBrowser.preview b, ?_⟩
    rw [mkResErr_message r b hb, if_pos h0, if_pos]
    · simp only [String.append_assoc]
    · exact nat_toString_ne_empty r.status
  · refine ⟨"HTTP error" ++
      (if (if r.status ≠ 0 then toString r.status else r.statusText) ≠ "" then
        " " ++ (if r.status ≠ 0 then toString r.status else r.statusText)
       else "") ++ ": ", ?_⟩
    rw [mkResErr_message r b hb]
    simp [String.append_assoc]
  · intro h
    exact ⟨preview_long b h, (preview_length_le b).2 h⟩

set_option maxRecDepth 8000 in
/-- C9 counterexample: for the 132-character body consisting of 128 `a`s
followed by " ...", the truncated preview coincides with the whole body,
so the message does contain the full body although the body is longer
than 128 characters. -/
theorem C9_counterexample :
    128 < cexBody.length ∧
    (XhttpBrowser.mkResErr cexBodyRes).message = "HTTP error: " ++ cexBody := by
  constructor
  · decide
  · decide

/-- Witness for C9 at a 404 Response with the short body "not found". -/
theorem C9_witness :
    (∃ pre post, (XhttpBrowser.mkResErr sampleBRes).message =
      pre ++ (toString sampleBRes.status ++ post)) ∧
    XhttpBrowser.preview "not found" = "not found" := by
  have h := C9_resErr_preview sampleBRes "not found" rfl
  exact ⟨h.1 (by decide), h.2.2.2.1 (by decide)⟩
